import Mathlib

/-!
Shallow embedding of `src/wavelets.py` (module `wavelets`): the `Wavelets`
kernel registry (lines 9-65) and `WaveletAnalysis` with its `scales` method
(lines 68-111).  Numeric code is embedded over `ℝ` (the idealised semantics
of the Python float computation); Python-level failures (AttributeError,
ZeroDivisionError) are made explicit with `Except`.
-/

/-- Python-level errors that the embedded code can raise, together with the
error names the specification postulates (`invalidParameter`,
`degenerateSignal`, `unknownFamily`); the latter let us state claims about
errors the source never actually raises. -/
inductive PyError
  | attributeError
  | zeroDivisionError
  | typeError
  | invalidParameter
  | degenerateSignal
  | unknownFamily
  deriving DecidableEq

/-- Python `int()` applied to a real number: truncation toward zero
(`int(2.7) = 2`, `int(-2.7) = -2`). -/
noncomputable def pyInt (x : ℝ) : ℤ := if 0 ≤ x then ⌊x⌋ else ⌈x⌉

/-- `J = int((1 / dj) * np.log2(self.N * self.dt / s0))` with `s0 = 2 * self.dt`
(src/wavelets.py lines 105-108). -/
noncomputable def largestScaleJ (N : ℕ) (dt dj : ℝ) : ℤ :=
  pyInt ((1 / dj) * Real.logb 2 ((N : ℝ) * dt / (2 * dt)))

/-- `2 ** j` as numpy computes it in `2 ** np.arange(0, J + 1)`: the
arange array has dtype int64, so the power is taken modulo `2^64` and
reinterpreted as a signed two's-complement 64-bit integer.  It equals
`2^j` for `j ≤ 62`, silently wraps to `-2^63` at `j = 63`, and to `0` for
`j ≥ 64`. -/
def i64pow2 (j : ℕ) : ℤ := (2 ^ j + 2 ^ 63) % 2 ^ 64 - 2 ^ 63

/-- `sj = s0 * 2 ** np.arange(0, J + 1)` (src/wavelets.py line 110):
the list `[s0 * (2^j wrapped to int64) for j in 0, ..., J]`, empty when
`J + 1 ≤ 0` (as `np.arange(0, J + 1)` is then empty).  The power is
int64 arithmetic (`i64pow2`), so entries wrap for `j ≥ 63`; the final
multiplication by `s0` promotes to float. -/
noncomputable def scaleLadder (N : ℕ) (dt dj : ℝ) : List ℝ :=
  (List.range (largestScaleJ N dt dj + 1).toNat).map
    (fun j => 2 * dt * (i64pow2 j : ℝ))

/-- The arithmetic body of `WaveletAnalysis.scales` (src/wavelets.py
lines 100-111) with Python error semantics: `1 / dj` raises
ZeroDivisionError when `dj = 0`, and `self.N * self.dt / s0` raises
ZeroDivisionError when `dt = 0` (then `s0 = 0`).  No other failure exists in
the body: in particular no validation of signs is performed.  (At `N = 0`
with `dt ≠ 0` the real program would raise OverflowError from
`int(np.log2(0.0)) = int(-inf)`; every claim is scoped to `N ≥ 1`,
where this idealisation is exact.) -/
noncomputable def scalesBody (N : ℕ) (dt dj : ℝ) : Except PyError (List ℝ) :=
  if dj = 0 then .error .zeroDivisionError
  else if dt = 0 then .error .zeroDivisionError
  else .ok (scaleLadder N dt dj)

/-- Values stored in a Python object's attribute dictionary. -/
inductive PyVal
  | vlist (l : List ℝ)
  | vreal (r : ℝ)
  | vnat (n : ℕ)

/-- `WaveletAnalysis.__init__` (src/wavelets.py lines 69-76): the attribute
dictionary it leaves on the object.  Exactly `x`, `dt` and `dj` are set;
no attribute `N` is ever defined. -/
def WaveletAnalysis.init (x : List ℝ) (dt dj : ℝ) : List (String × PyVal) :=
  [("x", .vlist x), ("dt", .vreal dt), ("dj", .vreal dj)]

/-- Python attribute read on an object's dictionary: AttributeError when the
name is absent. -/
def pyGetattr (obj : List (String × PyVal)) (name : String) :
    Except PyError PyVal :=
  match obj.lookup name with
  | some v => .ok v
  | none => .error .attributeError

/-- `WaveletAnalysis.scales` as a method on an object: it reads `self.dj`
(line 102), `self.dt` (line 105) and `self.N` (line 108) and then runs the
arithmetic body.  Reading a missing attribute raises AttributeError. -/
noncomputable def scalesMethod (obj : List (String × PyVal)) :
    Except PyError (List ℝ) := do
  let djv ← pyGetattr obj "dj"
  let dtv ← pyGetattr obj "dt"
  let nv ← pyGetattr obj "N"
  match djv, dtv, nv with
  | .vreal dj, .vreal dt, .vnat n => scalesBody n dt dj
  | _, _, _ => .error .typeError

/-- `np.linspace a b n`: `n` evenly spaced points from `a` to `b` inclusive. -/
noncomputable def linspace (a b : ℝ) (n : ℕ) : List ℝ :=
  if n = 1 then [a]
  else (List.range n).map (fun k => a + (k : ℝ) * (b - a) / ((n : ℝ) - 1))

/-- Modelled from the spec: `scipy.signal.ricker`, the real peak-detecting
(mexican hat) kernel the registry binds; its body is not part of this
repository.  `ricker(points, a) = A * (1 - x²/a²) * exp(-x²/(2a²))` at
`x = k - (points-1)/2`, `A = 2 / (sqrt(3a) * π^(1/4))`. -/
noncomputable def scipy.signal.ricker (points : ℕ) (a : ℝ) : List ℝ :=
  (List.range points).map (fun k =>
    let x := (k : ℝ) - ((points : ℝ) - 1) / 2
    2 / (Real.sqrt (3 * a) * Real.pi ^ ((1 : ℝ) / 4)) *
      (1 - x ^ 2 / a ^ 2) * Real.exp (-(x ^ 2) / (2 * a ^ 2)))

/-- Modelled from the spec: `scipy.signal.morlet`, the complex oscillatory
kernel the registry binds; its body is not part of this repository.
`morlet(M, w) = (exp(i w x) - exp(-w²/2)) * exp(-x²/2) * π^(-1/4)` on
`x = linspace(-2π, 2π, M)`. -/
noncomputable def scipy.signal.morlet (M : ℕ) (w : ℝ) : List ℂ :=
  (linspace (-(2 * Real.pi)) (2 * Real.pi) M).map (fun (x : ℝ) =>
    ((Complex.exp (Complex.I * (w : ℂ) * (x : ℂ)) -
        Complex.exp (((-(1 : ℝ) / 2) * w ^ 2 : ℝ) : ℂ)) *
      Complex.exp (((-(1 : ℝ) / 2) * x ^ 2 : ℝ) : ℂ) *
      ((Real.pi ^ (-(1 : ℝ) / 4) : ℝ) : ℂ) : ℂ))

/-- `Wavelets.morlet = scipy.signal.morlet` (src/wavelets.py line 61). -/
noncomputable def Wavelets.morlet : ℕ → ℝ → List ℂ := scipy.signal.morlet

/-- `Wavelets.ricker = scipy.signal.ricker` (src/wavelets.py line 63). -/
noncomputable def Wavelets.ricker : ℕ → ℝ → List ℝ := scipy.signal.ricker

/-- `Wavelets.dog2 = ricker` (src/wavelets.py line 65): a binding to the
very same function object as `Wavelets.ricker`. -/
noncomputable def Wavelets.dog2 : ℕ → ℝ → List ℝ := Wavelets.ricker

/-- A registered kernel-generating function: real-valued or complex-valued. -/
inductive Kernel
  | realK (f : ℕ → ℝ → List ℝ)
  | complexK (f : ℕ → ℝ → List ℂ)

/-- The registry of wavelet family names defined by the `Wavelets` class
(src/wavelets.py lines 60-65): a lookup table of name to function
reference. -/
noncomputable def waveletRegistry : List (String × Kernel) :=
  [("morlet", .complexK Wavelets.morlet),
   ("ricker", .realK Wavelets.ricker),
   ("dog2", .realK Wavelets.dog2)]

/-- Modelled from the spec: `kernelFor(familyName)`, the lookup operation on
the registry; only the registry itself (the `Wavelets` class attributes) is
in the source.  Fails with `unknownFamily` when the name is not
registered. -/
noncomputable def kernelFor (familyName : String) : Except PyError Kernel :=
  match waveletRegistry.lookup familyName with
  | some k => .ok k
  | none => .error .unknownFamily

/-! ### General lemmas about the ladder -/

lemma ratio_eq_half (N : ℕ) {dt : ℝ} (hdt : dt ≠ 0) :
    (N : ℝ) * dt / (2 * dt) = (N : ℝ) / 2 := by
  rw [mul_comm 2 dt, mul_comm (N : ℝ) dt, mul_div_mul_left _ _ hdt]

lemma largestScaleJ_eq_floor {N : ℕ} {dt dj : ℝ} (hdj : 0 < dj) (hdt : 0 < dt)
    (hlen : 2 * dt < (N : ℝ) * dt) :
    largestScaleJ N dt dj =
      ⌊(1 / dj) * Real.logb 2 ((N : ℝ) * dt / (2 * dt))⌋ ∧
    0 ≤ largestScaleJ N dt dj := by
  have h2 : (2 : ℝ) < (N : ℝ) := (mul_lt_mul_right hdt).mp hlen
  have hlogb : 0 < Real.logb 2 ((N : ℝ) * dt / (2 * dt)) := by
    rw [ratio_eq_half N hdt.ne']
    exact Real.logb_pos one_lt_two (by linarith)
  have ht : 0 ≤ (1 / dj) * Real.logb 2 ((N : ℝ) * dt / (2 * dt)) :=
    le_of_lt (mul_pos (by positivity) hlogb)
  have heq : largestScaleJ N dt dj =
      ⌊(1 / dj) * Real.logb 2 ((N : ℝ) * dt / (2 * dt))⌋ := by
    unfold largestScaleJ pyInt
    rw [if_pos ht]
  exact ⟨heq, heq ▸ Int.floor_nonneg.mpr ht⟩

lemma i64pow2_eq_pow {j : ℕ} (h : j ≤ 62) : i64pow2 j = 2 ^ j := by
  unfold i64pow2
  have hle : (2 : ℤ) ^ j ≤ 2 ^ 62 := pow_le_pow_right₀ one_le_two h
  have hub : (2 : ℤ) ^ j + 2 ^ 63 < 2 ^ 64 := by
    have h64 : (2 : ℤ) ^ 62 + 2 ^ 63 < 2 ^ 64 := by norm_num
    linarith
  have hlb : (0 : ℤ) ≤ 2 ^ j + 2 ^ 63 := by positivity
  rw [Int.emod_eq_of_lt hlb hub]
  ring

lemma i64pow2_sixtythree : i64pow2 63 = -(2 ^ 63) := by
  unfold i64pow2
  norm_num

lemma scaleLadder_length (N : ℕ) (dt dj : ℝ) :
    (scaleLadder N dt dj).length = (largestScaleJ N dt dj + 1).toNat := by
  unfold scaleLadder
  rw [List.length_map, List.length_range]

lemma scaleLadder_eq_cons (N : ℕ) (dt dj : ℝ) (h : 0 ≤ largestScaleJ N dt dj) :
    scaleLadder N dt dj =
      2 * dt :: (List.range (largestScaleJ N dt dj).toNat).map
        (fun j => 2 * dt * (i64pow2 (j + 1) : ℝ)) := by
  unfold scaleLadder
  have hJ : (largestScaleJ N dt dj + 1).toNat =
      (largestScaleJ N dt dj).toNat + 1 := by omega
  rw [hJ, List.range_succ_eq_map, List.map_cons, List.map_map]
  have h0 : i64pow2 0 = 1 := by
    rw [i64pow2_eq_pow (by norm_num)]
    norm_num
  simp [Function.comp_def, h0]

lemma scaleLadder_chain (N : ℕ) (dt dj : ℝ) (hdt : 0 < dt)
    (hnowrap : largestScaleJ N dt dj ≤ 62) :
    (scaleLadder N dt dj).Chain' (· < ·) := by
  unfold scaleLadder
  rw [List.chain'_map]
  rcases hm : (largestScaleJ N dt dj + 1).toNat with _ | n
  · simp
  · rw [List.chain'_range_succ]
    intro i hi
    have hn : n ≤ 62 := by omega
    rw [i64pow2_eq_pow (by omega : i ≤ 62),
      i64pow2_eq_pow (by omega : i.succ ≤ 62)]
    have hp : (((2 : ℤ) ^ i : ℤ) : ℝ) < (((2 : ℤ) ^ i.succ : ℤ) : ℝ) := by
      push_cast
      exact pow_lt_pow_right₀ one_lt_two (Nat.lt_succ_self i)
    have h2dt : (0 : ℝ) < 2 * dt := by linarith
    exact mul_lt_mul_of_pos_left hp h2dt

/-! ### Concrete evaluations of the largest-scale index -/

lemma logb_two_128 : Real.logb 2 (128 : ℝ) = 7 := by
  have h : (128 : ℝ) = 2 ^ (7 : ℕ) := by norm_num
  rw [h, Real.logb_pow, Real.logb_self_eq_one one_lt_two]
  norm_num

lemma largestScaleJ_256 : largestScaleJ 256 1 (1 / 8) = 56 := by
  unfold largestScaleJ pyInt
  have h1 : ((256 : ℕ) : ℝ) * 1 / (2 * 1) = 128 := by norm_num
  rw [h1, logb_two_128]
  norm_num

lemma largestScaleJ_one : largestScaleJ 1 1 (1 / 8) = -8 := by
  unfold largestScaleJ pyInt
  have h1 : ((1 : ℕ) : ℝ) * 1 / (2 * 1) = (2 : ℝ)⁻¹ := by norm_num
  rw [h1, Real.logb_inv, Real.logb_self_eq_one one_lt_two]
  rw [if_neg (by norm_num)]
  have h2 : (1 : ℝ) / (1 / 8) * -1 = ((-8 : ℤ) : ℝ) := by norm_num
  rw [h2, Int.ceil_intCast]

lemma largestScaleJ_two : largestScaleJ 2 1 (1 / 8) = 0 := by
  unfold largestScaleJ pyInt
  have h1 : ((2 : ℕ) : ℝ) * 1 / (2 * 1) = 1 := by norm_num
  rw [h1, Real.logb_one]
  norm_num

lemma largestScaleJ_four : largestScaleJ 4 1 1 = 1 := by
  unfold largestScaleJ pyInt
  have h1 : ((4 : ℕ) : ℝ) * 1 / (2 * 1) = 2 := by norm_num
  rw [h1, Real.logb_self_eq_one one_lt_two]
  norm_num

lemma logb_two_256 : Real.logb 2 (256 : ℝ) = 8 := by
  have h : (256 : ℝ) = 2 ^ (8 : ℕ) := by norm_num
  rw [h, Real.logb_pow, Real.logb_self_eq_one one_lt_two]
  norm_num

lemma largestScaleJ_512 : largestScaleJ 512 1 (1 / 8) = 64 := by
  unfold largestScaleJ pyInt
  have h1 : ((512 : ℕ) : ℝ) * 1 / (2 * 1) = 256 := by norm_num
  rw [h1, logb_two_256]
  norm_num

/-- The int64 wrap is reachable from an ordinary input: at `N = 512`,
`dt = 1`, `dj = 0.125` (the default resolution), `J = 64`, and the ladder
the code returns is not strictly increasing — its 64th element is
`2 * (-2^63) < 0` while its 63rd is `2 * 2^62 > 0`. -/
lemma scaleLadder_wraps_not_increasing :
    scalesBody 512 1 (1 / 8) = .ok (scaleLadder 512 1 (1 / 8)) ∧
    ¬(scaleLadder 512 1 (1 / 8)).Chain' (· < ·) := by
  constructor
  · unfold scalesBody
    rw [if_neg (by norm_num), if_neg (by norm_num)]
  · intro hchain
    unfold scaleLadder at hchain
    rw [largestScaleJ_512] at hchain
    rw [show ((64 : ℤ) + 1).toNat = 65 from rfl] at hchain
    rw [List.chain'_map] at hchain
    have hmono := (List.chain'_range_succ _ 64).mp hchain 62 (by norm_num)
    rw [i64pow2_eq_pow (by norm_num : (62 : ℕ) ≤ 62)] at hmono
    rw [show Nat.succ 62 = 63 from rfl, i64pow2_sixtythree] at hmono
    push_cast at hmono
    norm_num at hmono

/-! ### Claim theorems -/

/-- C6: the family name `dog2` resolves to the identical kernel function
object as `ricker`, so for every pair of arguments `(length, width)` the two
names produce bit-identical output. -/
theorem dog2_is_ricker :
    Wavelets.dog2 = Wavelets.ricker ∧
    ∀ (length : ℕ) (width : ℝ),
      Wavelets.dog2 length width = Wavelets.ricker length width :=
  ⟨rfl, fun _ _ => rfl⟩

/-- C5 (amended): the code performs no positivity validation at all: for no
input does the scale computation fail with `invalidParameter`; `dt ≤ 0` or
`dj ≤ 0` are accepted (for `dt < 0` a ladder of negative scales is
returned, see `scales_accepts_negative_dt`), and only `dj = 0` or `dt = 0`
fail, with ZeroDivisionError. -/
theorem scales_never_invalidParameter (N : ℕ) (dt dj : ℝ) :
    scalesBody N dt dj ≠ .error .invalidParameter := by
  unfold scalesBody
  split_ifs <;> simp

/-- C5 (counterexample to the claim as stated): at `N = 256`, `dt = -1`,
`dj = 1/8` — an input with `dt ≤ 0` — the scale computation does not fail
with `invalidParameter`; it succeeds and returns a ladder whose first
element is the negative scale `-2`. -/
theorem scales_accepts_negative_dt :
    scalesBody 256 (-1) (1 / 8) ≠ .error .invalidParameter ∧
    ∃ l, scalesBody 256 (-1) (1 / 8) = .ok l ∧ l.head? = some (-2) := by
  have hbody : scalesBody 256 (-1) (1 / 8) = .ok (scaleLadder 256 (-1) (1 / 8)) := by
    unfold scalesBody
    rw [if_neg (by norm_num), if_neg (by norm_num)]
  have hJ : largestScaleJ 256 (-1) (1 / 8) = 56 := by
    unfold largestScaleJ pyInt
    have h1 : ((256 : ℕ) : ℝ) * (-1) / (2 * (-1)) = 128 := by norm_num
    rw [h1, logb_two_128]
    norm_num
  have hcons := scaleLadder_eq_cons 256 (-1) (1 / 8) (by rw [hJ]; norm_num)
  refine ⟨by rw [hbody]; simp, scaleLadder 256 (-1) (1 / 8), hbody, ?_⟩
  rw [hcons]
  norm_num

/-- C10: `scales()` reads `self.N`, but `__init__` never defines an
attribute `N`; hence on every object built by `__init__`, for every input
`(x, dt, dj)`, calling `scales()` raises AttributeError before any ladder
is produced. -/
theorem scalesMethod_init_attributeError (x : List ℝ) (dt dj : ℝ) :
    scalesMethod (WaveletAnalysis.init x dt dj) = .error .attributeError := rfl

/-- C7: `scales()` is deterministic and a pure function of the three
attributes it reads (`dj`, `dt`, `N`): any two objects agreeing on those
attributes — whatever their other attributes, e.g. the signal `x` — yield
identical results, and in particular two calls on the same object yield
identical sequences. -/
theorem scalesMethod_deterministic (o1 o2 : List (String × PyVal))
    (hdj : pyGetattr o1 "dj" = pyGetattr o2 "dj")
    (hdt : pyGetattr o1 "dt" = pyGetattr o2 "dt")
    (hN : pyGetattr o1 "N" = pyGetattr o2 "N") :
    scalesMethod o1 = scalesMethod o2 := by
  unfold scalesMethod
  rw [hdj, hdt, hN]

/-- A concrete object carrying signal `[0, 1, 2]` and an `N` attribute. -/
noncomputable def objWithN1 : List (String × PyVal) :=
  [("x", .vlist [0, 1, 2]), ("dt", .vreal 1), ("dj", .vreal (1 / 8)),
   ("N", .vnat 3)]

/-- The same metadata as `objWithN1` with a different signal. -/
noncomputable def objWithN2 : List (String × PyVal) :=
  [("x", .vlist [5, 5]), ("dt", .vreal 1), ("dj", .vreal (1 / 8)),
   ("N", .vnat 3)]

/-- Witness for C7: two concrete objects that differ in their signal
attribute but agree on `N`, `dt`, `dj` get identical `scales()` results. -/
theorem scalesMethod_deterministic_witness :
    scalesMethod objWithN1 = scalesMethod objWithN2 :=
  scalesMethod_deterministic objWithN1 objWithN2 rfl rfl rfl

lemma pyInt_nonneg_iff (t : ℝ) : 0 ≤ pyInt t ↔ -1 < t := by
  unfold pyInt
  split_ifs with h
  · constructor
    · intro _; linarith
    · intro _; exact Int.floor_nonneg.mpr h
  · rw [show ((0 : ℤ) ≤ ⌈t⌉ ↔ (-1 : ℤ) < ⌈t⌉) by omega, Int.lt_ceil]
    norm_num

lemma pyInt_nonpos {t : ℝ} (h : t ≤ 0) : pyInt t ≤ 0 := by
  unfold pyInt
  split_ifs with h0
  · have ht : t = 0 := le_antisymm h h0
    simp [ht]
  · exact Int.ceil_le.mpr (by exact_mod_cast h)

/-- C2: for every `N ≥ 1`, `dt > 0`, `dj > 0` with `N*dt > 2*dt`, the first
element of the sequence returned by `scales()` equals the base scale
`s0 = 2*dt`. -/
theorem scales_first_element (N : ℕ) (dt dj : ℝ) (_hN : 1 ≤ N) (hdt : 0 < dt)
    (hdj : 0 < dj) (hlen : 2 * dt < (N : ℝ) * dt) :
    ∃ l, scalesBody N dt dj = .ok l ∧ l.head? = some (2 * dt) := by
  obtain ⟨heq, hpos⟩ := largestScaleJ_eq_floor hdj hdt hlen
  refine ⟨scaleLadder N dt dj, ?_, ?_⟩
  · unfold scalesBody
    rw [if_neg hdj.ne', if_neg hdt.ne']
  · rw [scaleLadder_eq_cons N dt dj hpos]
    rfl

/-- Witness for C2 at `N = 4`, `dt = 1`, `dj = 1`. -/
theorem scales_first_element_witness :
    ∃ l, scalesBody 4 1 1 = .ok l ∧ l.head? = some (2 * 1) :=
  scales_first_element 4 1 1 (by norm_num) (by norm_num) (by norm_num)
    (by norm_num)

/-- C3: for every valid input (`N ≥ 1`, `dt > 0`, `dj > 0`, `N*dt > 2*dt`),
the number of elements of the returned ladder equals
`floor((1/dj) * log2(N*dt / (2*dt))) + 1`. -/
theorem scales_ladder_length (N : ℕ) (dt dj : ℝ) (_hN : 1 ≤ N) (hdt : 0 < dt)
    (hdj : 0 < dj) (hlen : 2 * dt < (N : ℝ) * dt) :
    ∃ l, scalesBody N dt dj = .ok l ∧
      (l.length : ℤ) =
        ⌊(1 / dj) * Real.logb 2 ((N : ℝ) * dt / (2 * dt))⌋ + 1 := by
  obtain ⟨heq, hpos⟩ := largestScaleJ_eq_floor hdj hdt hlen
  refine ⟨scaleLadder N dt dj, ?_, ?_⟩
  · unfold scalesBody
    rw [if_neg hdj.ne', if_neg hdt.ne']
  · rw [scaleLadder_length, ← heq]
    omega

/-- Witness for C3 at `N = 4`, `dt = 1`, `dj = 1`. -/
theorem scales_ladder_length_witness :
    ∃ l, scalesBody 4 1 1 = .ok l ∧
      (l.length : ℤ) =
        ⌊(1 / (1 : ℝ)) * Real.logb 2 (((4 : ℕ) : ℝ) * 1 / (2 * 1))⌋ + 1 :=
  scales_ladder_length 4 1 1 (by norm_num) (by norm_num) (by norm_num)
    (by norm_num)

/-- C9 (amended): for every `N ≥ 1`, `dt > 0`, `dj > 0` with `N*dt > 2*dt`
and largest-scale index `J = int((1/dj)*log2(N*dt/(2*dt))) ≤ 62`, the
returned ladder is non-empty and strictly increasing.  The bound is
necessary: `2 ** np.arange(0, J+1)` is int64 arithmetic and wraps at
exponent 63, so for larger `J` the ladder is not increasing (see
`scaleLadder_wraps_not_increasing` at `N = 512`, `dt = 1`, `dj = 0.125`);
and for `N*dt ≤ 2*dt`, `scales()` can instead return successfully with an
empty ladder (see `scales_returns_empty_ladder`). -/
theorem scales_nonempty_increasing (N : ℕ) (dt dj : ℝ) (hdt : 0 < dt)
    (hdj : 0 < dj) (hlen : 2 * dt < (N : ℝ) * dt)
    (hnowrap : largestScaleJ N dt dj ≤ 62) :
    ∃ l, scalesBody N dt dj = .ok l ∧ l ≠ [] ∧ l.Chain' (· < ·) := by
  obtain ⟨heq, hpos⟩ := largestScaleJ_eq_floor hdj hdt hlen
  refine ⟨scaleLadder N dt dj, ?_, ?_, scaleLadder_chain N dt dj hdt hnowrap⟩
  · unfold scalesBody
    rw [if_neg hdj.ne', if_neg hdt.ne']
  · rw [scaleLadder_eq_cons N dt dj hpos]
    exact List.cons_ne_nil _ _

/-- Witness for C9 at `N = 4`, `dt = 1`, `dj = 1` (there `J = 1 ≤ 62`). -/
theorem scales_nonempty_increasing_witness :
    ∃ l, scalesBody 4 1 1 = .ok l ∧ l ≠ [] ∧ l.Chain' (· < ·) :=
  scales_nonempty_increasing 4 1 1 (by norm_num) (by norm_num) (by norm_num)
    (by rw [largestScaleJ_four]; norm_num)

/-- C9 (counterexample to the claim as stated): at `N = 1`, `dt = 1`,
`dj = 1/8`, `scales()` returns — no error is raised — yet the returned
ladder is the empty sequence (`J = -8`, so `np.arange(0, J+1)` is empty). -/
theorem scales_returns_empty_ladder : scalesBody 1 1 (1 / 8) = .ok [] := by
  have hbody : scalesBody 1 1 (1 / 8) = .ok (scaleLadder 1 1 (1 / 8)) := by
    unfold scalesBody
    rw [if_neg (by norm_num), if_neg (by norm_num)]
  have hl : scaleLadder 1 1 (1 / 8) = [] := by
    unfold scaleLadder
    rw [largestScaleJ_one]
    rfl
  rw [hbody, hl]

/-- C4 (amended): for `N ≥ 1`, `dt > 0`, `dj > 0` with `N*dt ≤ 2*dt`,
`scales()` does not fail at all (no `DegenerateSignal` error exists in the
code): it returns normally; the returned ladder is non-empty exactly when
`(1/dj) * log2(N*dt/(2*dt)) > -1` (Python `int()` truncates toward zero),
in which case it is the single-element ladder `[2*dt]`, and is empty
otherwise. -/
theorem scales_short_signal (N : ℕ) (dt dj : ℝ) (hdt : 0 < dt) (hdj : 0 < dj)
    (hshort : (N : ℝ) * dt ≤ 2 * dt) :
    scalesBody N dt dj = .ok (scaleLadder N dt dj) ∧
    (scaleLadder N dt dj ≠ [] ↔
      -1 < (1 / dj) * Real.logb 2 ((N : ℝ) * dt / (2 * dt))) ∧
    (scaleLadder N dt dj ≠ [] → scaleLadder N dt dj = [2 * dt]) := by
  have hNle : (N : ℝ) ≤ 2 := (mul_le_mul_right hdt).mp hshort
  have hlogb : Real.logb 2 ((N : ℝ) * dt / (2 * dt)) ≤ 0 := by
    rcases Nat.eq_zero_or_pos N with h0 | h0
    · subst h0
      simp
    · have hN0 : (0 : ℝ) < (N : ℝ) / 2 := by
        have : (0 : ℝ) < (N : ℝ) := by exact_mod_cast h0
        linarith
      rw [ratio_eq_half N hdt.ne']
      exact (Real.logb_nonpos_iff one_lt_two hN0).mpr (by linarith)
  have htle : (1 / dj) * Real.logb 2 ((N : ℝ) * dt / (2 * dt)) ≤ 0 := by
    have h1dj : (0 : ℝ) ≤ 1 / dj := by positivity
    have := mul_le_mul_of_nonneg_left hlogb h1dj
    simpa using this
  have hJle : largestScaleJ N dt dj ≤ 0 := pyInt_nonpos htle
  have hnil : scaleLadder N dt dj ≠ [] ↔ 0 ≤ largestScaleJ N dt dj := by
    rw [← List.length_pos, scaleLadder_length]
    omega
  refine ⟨?_, ?_, ?_⟩
  · unfold scalesBody
    rw [if_neg hdj.ne', if_neg hdt.ne']
  · rw [hnil]
    exact pyInt_nonneg_iff _
  · intro hne
    have h0 : 0 ≤ largestScaleJ N dt dj := hnil.mp hne
    have hJ0 : largestScaleJ N dt dj = 0 := le_antisymm hJle h0
    rw [scaleLadder_eq_cons N dt dj h0, hJ0]
    rfl

/-- Witness for C4's amended claim at the boundary `N*dt = 2*dt`
(`N = 2`, `dt = 1`, `dj = 1/8`). -/
theorem scales_short_signal_witness :
    scalesBody 2 1 (1 / 8) = .ok (scaleLadder 2 1 (1 / 8)) :=
  (scales_short_signal 2 1 (1 / 8) (by norm_num) (by norm_num)
    (by norm_num)).1

/-- C4 (counterexample to the claim as stated): at `N = 2`, `dt = 1`,
`dj = 1/8` — where `N*dt = 2*dt` — `scales()` does not fail with
`DegenerateSignal`; it returns the one-element ladder `[2.0]`. -/
theorem scales_boundary_returns_ladder :
    scalesBody 2 1 (1 / 8) ≠ .error .degenerateSignal ∧
    scalesBody 2 1 (1 / 8) = .ok [2] := by
  have hbody : scalesBody 2 1 (1 / 8) = .ok (scaleLadder 2 1 (1 / 8)) := by
    unfold scalesBody
    rw [if_neg (by norm_num), if_neg (by norm_num)]
  have hl : scaleLadder 2 1 (1 / 8) = [2] := by
    unfold scaleLadder
    rw [largestScaleJ_two]
    norm_num [List.range_succ, i64pow2]
  exact ⟨by rw [hbody, hl]; simp, by rw [hbody, hl]⟩

/-- C1 (evaluation at the failing input): at `N = 256`, `dt = 1`,
`dj = 0.125`, the second ladder element the code produces is `4.0`
(`sj = s0 * 2**arange(0, J+1)` — the `dj` factor is missing from the
exponent), while the documented ladder `s_j = s0 * 2^(j*dj)` has second
element `2 * 2^(1*0.125) ≈ 2.18 ≠ 4`. -/
theorem scales_second_element_is_four :
    (scaleLadder 256 1 (1 / 8))[1]? = some 4 ∧
    2 * (2 : ℝ) ^ ((1 : ℝ) * (1 / 8)) ≠ 4 := by
  constructor
  · unfold scaleLadder
    rw [largestScaleJ_256]
    rw [show ((56 : ℤ) + 1).toNat = 57 by rfl]
    rw [List.getElem?_map, List.getElem?_range (by norm_num : 1 < 57)]
    norm_num [i64pow2]
  · have h1 : (2 : ℝ) ^ ((1 : ℝ) * (1 / 8)) < 2 ^ (1 : ℝ) :=
      Real.rpow_lt_rpow_of_exponent_lt one_lt_two (by norm_num)
    rw [Real.rpow_one] at h1
    intro hc
    have h2 : (2 : ℝ) ^ ((1 : ℝ) * (1 / 8)) = 2 := by linarith
    linarith

/-- C8: looking a kernel up by family name fails with `unknownFamily`
exactly when the name is none of the registered `morlet`, `ricker`,
`dog2`, and succeeds with a kernel function for each registered name. -/
theorem kernelFor_registered_names :
    (∀ familyName : String,
      kernelFor familyName = .error .unknownFamily ↔
        ¬(familyName = "morlet" ∨ familyName = "ricker" ∨
          familyName = "dog2")) ∧
    (∃ k, kernelFor "morlet" = .ok k) ∧
    (∃ k, kernelFor "ricker" = .ok k) ∧
    (∃ k, kernelFor "dog2" = .ok k) := by
  refine ⟨?_, ⟨_, rfl⟩, ⟨_, rfl⟩, ⟨_, rfl⟩⟩
  intro familyName
  unfold kernelFor waveletRegistry
  by_cases h1 : familyName = "morlet"
  · subst h1
    simp [List.lookup]
  · by_cases h2 : familyName = "ricker"
    · subst h2
      simp [List.lookup]
    · by_cases h3 : familyName = "dog2"
      · subst h3
        simp [List.lookup]
      · have hb1 : (familyName == "morlet") = false := beq_eq_false_iff_ne.mpr h1
        have hb2 : (familyName == "ricker") = false := beq_eq_false_iff_ne.mpr h2
        have hb3 : (familyName == "dog2") = false := beq_eq_false_iff_ne.mpr h3
        simp [List.lookup, hb1, hb2, hb3, h1, h2, h3]

/-- Witness for C5's amended claim at `N = 4`, `dt = 1`, `dj = 1`: even on a
fully valid input the computation cannot produce `invalidParameter`, the
result being `.ok` of the ladder. -/
theorem scales_never_invalidParameter_witness :
    scalesBody 4 1 1 ≠ .error .invalidParameter :=
  scales_never_invalidParameter 4 1 1
